import Mathlib

/-!
Shallow embedding of the `usds_swap` Anchor program
(`programs/usds-swap/src/lib.rs` and `programs/usds-swap/src/delta_neutral.rs`).

Modelling conventions:
* `Pubkey` values are modelled as `Nat`.
* `u8` / `u64` fields are modelled as `Nat`; Rust's `x += 1` on a `u8` in a
  release build wraps modulo 2^8 (no overflow-check profile is present in the
  sources), modelled by `u8wrap`; `u64::saturating_add` is `satAdd64`;
  `u8::saturating_sub(1)` coincides with truncated `Nat` subtraction.
* `i64` timestamps are modelled as `Int`; the clock collaborator is an
  explicit `now` argument.
* Anchor account-constraint failures (the `constraint = strategy.authority ==
  authority.key()` check of the `UpdateStrategy` context) are an explicit
  `AuthorityMismatch` error checked before the instruction body, matching
  Anchor's validation order.  The `ReportYield` context has a `Signer` but no
  constraint tying it to any stored authority, so `report_yield` performs no
  caller check.
* Each instruction handler is a pure function from its inputs and the records
  it touches to `Except` of the updated records; a thrown error models the
  aborted (no-write) transaction.
-/

/-- Wrapping of an unsigned 8-bit addition result, Rust release semantics of
`u8` `+=`. -/
def u8wrap (n : Nat) : Nat := n % 256

/-- `u64::saturating_add`. -/
def satAdd64 (a b : Nat) : Nat := min (a + b) (2 ^ 64 - 1)

/-- `StrategyState` from `delta_neutral.rs`. -/
inductive StrategyState where
  | Active
  | Paused
  | Terminated
deriving Repr, DecidableEq

/-- `StrategyType` from `delta_neutral.rs`. -/
inductive StrategyType where
  | LiquidStaking
  | Lending
  | LiquidityProvision
deriving Repr, DecidableEq

/-- `DeltaNeutralError` from `lib.rs`. -/
inductive DeltaNeutralError where
  | InvalidAllocationPercentage
  | InvalidRiskScore
  | InvalidTargetApy
  | StrategyAlreadyActive
  | StrategyNotActive
  | StrategyTerminated
  | InsufficientTreasuryBalance
deriving Repr, DecidableEq

/-- Errors an instruction can abort with: an Anchor account-constraint
violation (authority mismatch in `UpdateStrategy`), a program error from
`DeltaNeutralError`, or a missing account (used by the global model when an
instruction targets a strategy account that was never created). -/
inductive ProgError where
  | AuthorityMismatch
  | Dne (e : DeltaNeutralError)
  | StrategyNotFound
deriving Repr, DecidableEq

/-- The `Strategy` account from `delta_neutral.rs`. -/
structure Strategy where
  authority : Nat
  strategy_type : StrategyType
  state : StrategyState
  allocation_percentage : Nat
  target_apy : Nat
  current_apy : Nat
  treasury : Nat
  treasury_token_account : Nat
  strategy_token_accounts : List Nat
  strategy_data : List Nat
  last_rebalance_ts : Int
  risk_score : Nat
  created_at : Int
  bump : Nat
deriving Repr, DecidableEq

/-- The `TreasuryStats` account from `delta_neutral.rs`. -/
structure TreasuryStats where
  total_usdc_deposited : Nat
  total_usdc_withdrawn : Nat
  total_yield_generated : Nat
  current_portfolio_value : Nat
  strategies_count : Nat
  active_strategies_count : Nat
  last_updated_ts : Int
  treasury : Nat
  treasury_authority : Nat
  bump : Nat
deriving Repr, DecidableEq

/-- `initialize_strategy` from `lib.rs` (lines 103-158).  The
`treasury_stats` argument is the account after Anchor's `init_if_needed`:
all-zero when freshly created, its previous contents otherwise; the body
fills the stats identity fields only when `total_usdc_deposited == 0` and
then does `strategies_count += 1` (a plain `u8` addition, which wraps). -/
def initialize_strategy (authority treasury treasury_token_account : Nat)
    (strategy_type : StrategyType)
    (allocation_percentage target_apy risk_score : Nat)
    (strategy_bump stats_bump : Nat) (now : Int)
    (treasury_stats : TreasuryStats) :
    Except ProgError (Strategy × TreasuryStats) :=
  if ¬ allocation_percentage ≤ 100 then
    .error (.Dne .InvalidAllocationPercentage)
  else if ¬ risk_score ≤ 100 then
    .error (.Dne .InvalidRiskScore)
  else if ¬ target_apy > 0 then
    .error (.Dne .InvalidTargetApy)
  else
    let strategy : Strategy :=
      { authority := authority
        strategy_type := strategy_type
        state := StrategyState.Paused
        allocation_percentage := allocation_percentage
        target_apy := target_apy
        current_apy := 0
        treasury := treasury
        treasury_token_account := treasury_token_account
        strategy_token_accounts := List.replicate 5 0
        strategy_data := List.replicate 1024 0
        last_rebalance_ts := now
        risk_score := risk_score
        created_at := now
        bump := strategy_bump }
    let stats0 :=
      if treasury_stats.total_usdc_deposited = 0 then
        { treasury_stats with
            treasury := treasury
            treasury_authority := authority
            last_updated_ts := now
            bump := stats_bump }
      else treasury_stats
    let stats1 :=
      { stats0 with strategies_count := u8wrap (stats0.strategies_count + 1) }
    .ok (strategy, stats1)

/-- `activate_strategy` from `lib.rs` (lines 161-188), behind the
`UpdateStrategy` authority constraint.  `active_strategies_count += 1` is a
plain `u8` addition (wraps). -/
def activate_strategy (caller : Nat) (now : Int)
    (strategy : Strategy) (stats : TreasuryStats) :
    Except ProgError (Strategy × TreasuryStats) :=
  if ¬ strategy.authority = caller then
    .error .AuthorityMismatch
  else if strategy.state = StrategyState.Active then
    .error (.Dne .StrategyAlreadyActive)
  else
    .ok ({ strategy with
             state := StrategyState.Active
             last_rebalance_ts := now },
         { stats with
             active_strategies_count := u8wrap (stats.active_strategies_count + 1)
             last_updated_ts := now })

/-- `pause_strategy` from `lib.rs` (lines 191-217), behind the
`UpdateStrategy` authority constraint.  Uses `saturating_sub`, which on `Nat`
is plain truncated subtraction. -/
def pause_strategy (caller : Nat) (now : Int)
    (strategy : Strategy) (stats : TreasuryStats) :
    Except ProgError (Strategy × TreasuryStats) :=
  if ¬ strategy.authority = caller then
    .error .AuthorityMismatch
  else if ¬ strategy.state = StrategyState.Active then
    .error (.Dne .StrategyNotActive)
  else
    .ok ({ strategy with state := StrategyState.Paused },
         { stats with
             active_strategies_count := stats.active_strategies_count - 1
             last_updated_ts := now })

/-- `terminate_strategy` from `lib.rs` (lines 220-245), behind the
`UpdateStrategy` authority constraint.  No state precondition; decrements the
active counter (saturating) only when the previous state was `Active`. -/
def terminate_strategy (caller : Nat) (now : Int)
    (strategy : Strategy) (stats : TreasuryStats) :
    Except ProgError (Strategy × TreasuryStats) :=
  if ¬ strategy.authority = caller then
    .error .AuthorityMismatch
  else
    .ok ({ strategy with state := StrategyState.Terminated },
         { stats with
             active_strategies_count :=
               if strategy.state = StrategyState.Active then
                 stats.active_strategies_count - 1
               else stats.active_strategies_count
             last_updated_ts := now })

/-- `update_allocation` from `lib.rs` (lines 248-269), behind the
`UpdateStrategy` authority constraint. -/
def update_allocation (caller : Nat) (new_allocation : Nat) (now : Int)
    (strategy : Strategy) (stats : TreasuryStats) :
    Except ProgError (Strategy × TreasuryStats) :=
  if ¬ strategy.authority = caller then
    .error .AuthorityMismatch
  else if ¬ new_allocation ≤ 100 then
    .error (.Dne .InvalidAllocationPercentage)
  else
    .ok ({ strategy with allocation_percentage := new_allocation },
         { stats with last_updated_ts := now })

/-- `update_apy` from `lib.rs` (lines 272-290), behind the `UpdateStrategy`
authority constraint.  No validation of the new APY. -/
def update_apy (caller : Nat) (new_apy : Nat) (now : Int)
    (strategy : Strategy) (stats : TreasuryStats) :
    Except ProgError (Strategy × TreasuryStats) :=
  if ¬ strategy.authority = caller then
    .error .AuthorityMismatch
  else
    .ok ({ strategy with current_apy := new_apy },
         { stats with last_updated_ts := now })

/-- `report_yield` from `lib.rs` (lines 293-315).  Its `ReportYield` context
requires `authority` to be a signer but places no constraint relating it to
`treasury_stats.treasury_authority` (or any stored key), so the handler
succeeds for every caller; the body saturating-adds the yield and overwrites
the portfolio value. -/
def report_yield (caller : Nat) (yield_amount new_portfolio_value : Nat)
    (now : Int) (stats : TreasuryStats) : Except ProgError TreasuryStats :=
  .ok { stats with
          total_yield_generated :=
            satAdd64 stats.total_yield_generated yield_amount
          current_portfolio_value := new_portfolio_value
          last_updated_ts := now }

/-!
Global model.  The program manages one treasury (the `treasury` PDA is
derived from the fixed seed `b"treasury"`), one `TreasuryStats` account for
it, and any number of `Strategy` accounts.  Strategy accounts are keyed by
their user-chosen `strategy_seed`; since the core logic only relies on
Anchor's `init` guaranteeing freshness, the model keys them by creation
index: `initStrategy` appends a new record and the other instructions
address an existing record by index.  A freshly created (`init_if_needed`)
stats account is all-zero, so the genesis state carries the zero record.  A
failed instruction aborts the transaction, leaving the state unchanged
(`stepKeep`). -/

/-- The singleton treasury PDA key. -/
def TREASURY : Nat := 0

/-- Global state: the shared `TreasuryStats` and all created `Strategy`
accounts, in creation order. -/
structure GState where
  stats : TreasuryStats
  strategies : List Strategy
deriving Repr, DecidableEq

/-- One instruction of the program's external surface, with its caller and
arguments. -/
inductive Op where
  | initStrategy (caller : Nat) (stype : StrategyType) (alloc tapy risk : Nat)
  | activateStrategy (caller idx : Nat)
  | pauseStrategy (caller idx : Nat)
  | terminateStrategy (caller idx : Nat)
  | updateAllocation (caller idx newAlloc : Nat)
  | updateApy (caller idx newApy : Nat)
  | reportYield (caller amount pv : Nat)
deriving Repr, DecidableEq

/-- Run an instruction that addresses one existing strategy account
(`UpdateStrategy` context): the account must exist, and the handler's
updated strategy and stats records are committed together. -/
def onStrategy (idx : Nat)
    (f : Strategy → TreasuryStats → Except ProgError (Strategy × TreasuryStats))
    (g : GState) : Except ProgError GState :=
  match g.strategies[idx]? with
  | none => .error .StrategyNotFound
  | some st =>
    match f st g.stats with
    | .ok (st', stats') =>
      .ok { stats := stats', strategies := g.strategies.set idx st' }
    | .error e => .error e

/-- Execute one instruction as a transaction against the global state. -/
def step (now : Int) (op : Op) (g : GState) : Except ProgError GState :=
  match op with
  | .initStrategy caller stype alloc tapy risk =>
    match initialize_strategy caller TREASURY 0 stype alloc tapy risk 0 0 now
        g.stats with
    | .ok (st, stats') =>
      .ok { stats := stats', strategies := g.strategies ++ [st] }
    | .error e => .error e
  | .activateStrategy caller idx => onStrategy idx (activate_strategy caller now) g
  | .pauseStrategy caller idx => onStrategy idx (pause_strategy caller now) g
  | .terminateStrategy caller idx => onStrategy idx (terminate_strategy caller now) g
  | .updateAllocation caller idx newAlloc =>
    onStrategy idx (update_allocation caller newAlloc now) g
  | .updateApy caller idx newApy => onStrategy idx (update_apy caller newApy now) g
  | .reportYield caller amount pv =>
    match report_yield caller amount pv now g.stats with
    | .ok stats' => .ok { stats := stats', strategies := g.strategies }
    | .error e => .error e

/-- A failed instruction is an aborted transaction: no state change. -/
def stepKeep (now : Int) (op : Op) (g : GState) : GState :=
  match step now op g with
  | .ok g' => g'
  | .error _ => g

/-- Run a list of timestamped instructions. -/
def execTrace : List (Int × Op) → GState → GState
  | [], g => g
  | (t, op) :: rest, g => execTrace rest (stepKeep t op g)

/-- The all-zero `TreasuryStats` record, as Anchor zero-initializes a fresh
account. -/
def statsZero : TreasuryStats :=
  { total_usdc_deposited := 0
    total_usdc_withdrawn := 0
    total_yield_generated := 0
    current_portfolio_value := 0
    strategies_count := 0
    active_strategies_count := 0
    last_updated_ts := 0
    treasury := 0
    treasury_authority := 0
    bump := 0 }

/-- Genesis: no strategies, zeroed stats. -/
def g0 : GState := { stats := statsZero, strategies := [] }

/-- A global state is reachable when some instruction trace produces it from
genesis. -/
def Reachable (g : GState) : Prop := ∃ tr, execTrace tr g0 = g

/-- Whether a strategy record is in the `Active` state. -/
def isActive (st : Strategy) : Bool := st.state == StrategyState.Active

/-- Number of strategies currently in the `Active` state. -/
def countActive (l : List Strategy) : Nat := l.countP isActive

/-- The strengthened counter invariant: while at most 255 strategies have
been created, the `u8` counters record the exact number of strategies and of
`Active` strategies. -/
def INV (g : GState) : Prop :=
  g.strategies.length ≤ 255 →
    g.stats.strategies_count = g.strategies.length ∧
    g.stats.active_strategies_count = countActive g.strategies

/-- Error surfaced by the token-program collaborators. -/
inductive TokenError where
  | InsufficientBalance
deriving Repr, DecidableEq

/-- Modelled from the spec: the token balances the swap instructions act on —
the caller's stable (USDC) and synthetic (USDs) token accounts and the
treasury's stable token account.  The token transfer/mint/burn primitives
are external collaborators (spec section 6), not code of this repository. -/
structure Balances where
  user_usdc : Nat
  user_usds : Nat
  treasury_usdc : Nat
deriving Repr, DecidableEq

/-- `swap_usdc_to_usds` from `lib.rs` (lines 26-61): transfer `amount` USDC
from the user to the treasury token account, then mint `amount` USDs to the
user.  Modelled from the spec: the `transfer` collaborator debits the source
when its balance suffices (otherwise the `InsufficientBalance`-class error
surfaces and the transaction aborts) and credits the destination; `mint_to`
credits the destination. -/
def swap_usdc_to_usds (amount : Nat) (b : Balances) :
    Except TokenError Balances :=
  if b.user_usdc < amount then .error .InsufficientBalance
  else
    .ok { user_usdc := b.user_usdc - amount
          user_usds := b.user_usds + amount
          treasury_usdc := b.treasury_usdc + amount }

/-- `swap_usds_to_usdc` from `lib.rs` (lines 63-98): burn `amount` USDs from
the user, then transfer `amount` USDC from the treasury to the user.
Modelled from the spec: the `burn` collaborator debits the source when its
balance suffices, `transfer` as above. -/
def swap_usds_to_usdc (amount : Nat) (b : Balances) :
    Except TokenError Balances :=
  if b.user_usds < amount then .error .InsufficientBalance
  else if b.treasury_usdc < amount then .error .InsufficientBalance
  else
    .ok { user_usdc := b.user_usdc + amount
          user_usds := b.user_usds - amount
          treasury_usdc := b.treasury_usdc - amount }

/-- A strategy record of authority `1` in the `Terminated` state. -/
def termStrat : Strategy :=
  { authority := 1
    strategy_type := StrategyType.LiquidStaking
    state := StrategyState.Terminated
    allocation_percentage := 30
    target_apy := 500
    current_apy := 0
    treasury := 0
    treasury_token_account := 0
    strategy_token_accounts := List.replicate 5 0
    strategy_data := List.replicate 1024 0
    last_rebalance_ts := 0
    risk_score := 40
    created_at := 0
    bump := 0 }

/-- `statsZero` with the treasury authority set to principal `1`. -/
def statsAuth1 : TreasuryStats := { statsZero with treasury_authority := 1 }

/-- `statsZero` with the strategies counter at the `u8` maximum. -/
def stats255 : TreasuryStats := { statsZero with strategies_count := 255 }

/-- `statsZero` with deposit history and a nonzero timestamp. -/
def statsDep : TreasuryStats :=
  { statsZero with total_usdc_deposited := 1, last_updated_ts := 7 }

/-- A trace creating 255 strategies, activating the first, then creating a
256th strategy, all by authority `1` with valid arguments. -/
def badTrace : List (Int × Op) :=
  List.replicate 255
      ((0 : Int), Op.initStrategy 1 StrategyType.LiquidStaking 30 500 40) ++
    [((0 : Int), Op.activateStrategy 1 0),
     ((0 : Int), Op.initStrategy 1 StrategyType.LiquidStaking 30 500 40)]

/-- Updating one list entry exchanges its contribution to `countP`. -/
theorem countP_set_getElem {α : Type _} (p : α → Bool) (l : List α) (i : Nat)
    (x st : α) (h : l[i]? = some st) :
    (l.set i x).countP p + (if p st then 1 else 0)
      = l.countP p + (if p x then 1 else 0) := by
  induction l generalizing i with
  | nil => simp at h
  | cons a t ih =>
    cases i with
    | zero =>
      simp at h
      subst h
      simp [List.countP_cons]
      omega
    | succ n =>
      simp at h
      have := ih n h
      simp [List.countP_cons]
      omega

/-- A list with an entry violating `p` has `countP` strictly below its
length. -/
theorem countP_lt_length_getElem {α : Type _} (p : α → Bool) (l : List α)
    (i : Nat) (st : α) (h : l[i]? = some st) (hp : p st = false) :
    l.countP p < l.length := by
  induction l generalizing i with
  | nil => simp at h
  | cons a t ih =>
    cases i with
    | zero =>
      simp at h
      subst h
      simp [List.countP_cons, hp]
      exact Nat.lt_succ_of_le (List.countP_le_length p)
    | succ n =>
      simp at h
      have := ih n h
      simp [List.countP_cons]
      split <;> omega

/-- A list with an entry satisfying `p` has positive `countP`. -/
theorem countP_pos_getElem {α : Type _} (p : α → Bool) (l : List α)
    (i : Nat) (st : α) (h : l[i]? = some st) (hp : p st = true) :
    1 ≤ l.countP p := by
  induction l generalizing i with
  | nil => simp at h
  | cons a t ih =>
    cases i with
    | zero =>
      simp at h
      subst h
      simp [List.countP_cons, hp]
    | succ n =>
      simp at h
      have := ih n h
      simp [List.countP_cons]
      omega

/-- Characterization of a successful `onStrategy` transaction. -/
theorem onStrategy_ok {idx : Nat}
    {f : Strategy → TreasuryStats → Except ProgError (Strategy × TreasuryStats)}
    {g g' : GState} (h : onStrategy idx f g = .ok g') :
    ∃ st st' stats', g.strategies[idx]? = some st ∧
      f st g.stats = .ok (st', stats') ∧
      g' = { stats := stats', strategies := g.strategies.set idx st' } := by
  unfold onStrategy at h
  cases hl : g.strategies[idx]? with
  | none => simp [hl] at h
  | some st =>
    simp only [hl] at h
    cases hf : f st g.stats with
    | error e => simp [hf] at h
    | ok r =>
      obtain ⟨st', stats'⟩ := r
      simp only [hf] at h
      cases h
      exact ⟨st, st', stats', rfl, hf, rfl⟩

/-- Characterization of a successful `initialize_strategy`. -/
theorem initialize_strategy_ok {authority treasury tta : Nat}
    {stype : StrategyType} {alloc tapy risk sb stb : Nat} {now : Int}
    {stats : TreasuryStats} {st : Strategy} {stats' : TreasuryStats}
    (h : initialize_strategy authority treasury tta stype alloc tapy risk
        sb stb now stats = .ok (st, stats')) :
    alloc ≤ 100 ∧ risk ≤ 100 ∧ 0 < tapy ∧
    st = { authority := authority
           strategy_type := stype
           state := StrategyState.Paused
           allocation_percentage := alloc
           target_apy := tapy
           current_apy := 0
           treasury := treasury
           treasury_token_account := tta
           strategy_token_accounts := List.replicate 5 0
           strategy_data := List.replicate 1024 0
           last_rebalance_ts := now
           risk_score := risk
           created_at := now
           bump := sb } ∧
    stats' = (if stats.total_usdc_deposited = 0 then
                { stats with
                    treasury := treasury
                    treasury_authority := authority
                    last_updated_ts := now
                    bump := stb
                    strategies_count := u8wrap (stats.strategies_count + 1) }
              else
                { stats with
                    strategies_count := u8wrap (stats.strategies_count + 1) }) := by
  by_cases h1 : alloc ≤ 100
  case neg => simp [initialize_strategy, h1] at h
  by_cases h2 : risk ≤ 100
  case neg => simp [initialize_strategy, h1, h2] at h
  by_cases h3 : 0 < tapy
  case neg => simp [initialize_strategy, h1, h2, h3] at h
  by_cases hd : stats.total_usdc_deposited = 0 <;>
    simp only [initialize_strategy, h1, h2, h3, hd, not_true, not_false_iff,
      if_true, if_false, ite_true, ite_false, Except.ok.injEq, Prod.mk.injEq] at h <;>
    obtain ⟨hst, hstats⟩ := h <;>
    refine ⟨h1, h2, h3, hst.symm, ?_⟩ <;>
    simp [hd, hstats.symm]

/-- Projections of a successful `initialize_strategy` needed by the
invariants: the new record starts `Paused`; the stats counter wraps up by
one; the active counter, deposits and (when the stats record has history)
the timestamp are untouched. -/
theorem initialize_strategy_ok_stats {authority treasury tta : Nat}
    {stype : StrategyType} {alloc tapy risk sb stb : Nat} {now : Int}
    {stats : TreasuryStats} {st : Strategy} {stats' : TreasuryStats}
    (h : initialize_strategy authority treasury tta stype alloc tapy risk
        sb stb now stats = .ok (st, stats')) :
    st.state = StrategyState.Paused ∧
    stats'.strategies_count = u8wrap (stats.strategies_count + 1) ∧
    stats'.active_strategies_count = stats.active_strategies_count ∧
    stats'.total_usdc_deposited = stats.total_usdc_deposited ∧
    stats'.last_updated_ts
      = (if stats.total_usdc_deposited = 0 then now else stats.last_updated_ts) := by
  obtain ⟨-, -, -, hst, hstats⟩ := initialize_strategy_ok h
  subst hst
  subst hstats
  by_cases hd : stats.total_usdc_deposited = 0 <;> simp [hd]

/-- Characterization of a successful `activate_strategy`. -/
theorem activate_strategy_ok {caller : Nat} {now : Int} {st : Strategy}
    {stats : TreasuryStats} {st' : Strategy} {stats' : TreasuryStats}
    (h : activate_strategy caller now st stats = .ok (st', stats')) :
    st.authority = caller ∧ ¬ st.state = StrategyState.Active ∧
    st' = { st with state := StrategyState.Active, last_rebalance_ts := now } ∧
    stats' = { stats with
                 active_strategies_count :=
                   u8wrap (stats.active_strategies_count + 1)
                 last_updated_ts := now } := by
  unfold activate_strategy at h
  split_ifs at h with h1 h2
  push_neg at h1
  simp only [Except.ok.injEq, Prod.mk.injEq] at h
  exact ⟨h1, h2, h.1.symm, h.2.symm⟩

/-- Characterization of a successful `pause_strategy`. -/
theorem pause_strategy_ok {caller : Nat} {now : Int} {st : Strategy}
    {stats : TreasuryStats} {st' : Strategy} {stats' : TreasuryStats}
    (h : pause_strategy caller now st stats = .ok (st', stats')) :
    st.authority = caller ∧ st.state = StrategyState.Active ∧
    st' = { st with state := StrategyState.Paused } ∧
    stats' = { stats with
                 active_strategies_count := stats.active_strategies_count - 1
                 last_updated_ts := now } := by
  unfold pause_strategy at h
  split_ifs at h with h1 h2
  push_neg at h1 h2
  simp only [Except.ok.injEq, Prod.mk.injEq] at h
  exact ⟨h1, h2, h.1.symm, h.2.symm⟩

/-- Characterization of a successful `terminate_strategy`. -/
theorem terminate_strategy_ok {caller : Nat} {now : Int} {st : Strategy}
    {stats : TreasuryStats} {st' : Strategy} {stats' : TreasuryStats}
    (h : terminate_strategy caller now st stats = .ok (st', stats')) :
    st.authority = caller ∧
    st' = { st with state := StrategyState.Terminated } ∧
    stats' = { stats with
                 active_strategies_count :=
                   if st.state = StrategyState.Active then
                     stats.active_strategies_count - 1
                   else stats.active_strategies_count
                 last_updated_ts := now } := by
  by_cases h1 : st.authority = caller
  case neg => simp [terminate_strategy, h1] at h
  by_cases hA : st.state = StrategyState.Active <;>
    simp only [terminate_strategy, h1, hA, if_true, if_false, ite_true, ite_false,
      not_true, not_false_iff, Except.ok.injEq, Prod.mk.injEq] at h <;>
    exact ⟨h1, by simp only [h1]; exact h.1.symm,
      by simp only [hA, if_true, if_false, ite_true, ite_false]; exact h.2.symm⟩

/-- Characterization of a successful `update_allocation`. -/
theorem update_allocation_ok {caller newAlloc : Nat} {now : Int}
    {st : Strategy} {stats : TreasuryStats} {st' : Strategy}
    {stats' : TreasuryStats}
    (h : update_allocation caller newAlloc now st stats = .ok (st', stats')) :
    st.authority = caller ∧ newAlloc ≤ 100 ∧
    st' = { st with allocation_percentage := newAlloc } ∧
    stats' = { stats with last_updated_ts := now } := by
  unfold update_allocation at h
  split_ifs at h with h1 h2
  push_neg at h1 h2
  simp only [Except.ok.injEq, Prod.mk.injEq] at h
  exact ⟨h1, h2, h.1.symm, h.2.symm⟩

/-- Characterization of a successful `update_apy`. -/
theorem update_apy_ok {caller newApy : Nat} {now : Int} {st : Strategy}
    {stats : TreasuryStats} {st' : Strategy} {stats' : TreasuryStats}
    (h : update_apy caller newApy now st stats = .ok (st', stats')) :
    st.authority = caller ∧
    st' = { st with current_apy := newApy } ∧
    stats' = { stats with last_updated_ts := now } := by
  unfold update_apy at h
  split_ifs at h with h1
  push_neg at h1
  simp only [Except.ok.injEq, Prod.mk.injEq] at h
  exact ⟨h1, h.1.symm, h.2.symm⟩

/-- `report_yield` always succeeds, with this exact result. -/
theorem report_yield_eq (caller yield_amount new_portfolio_value : Nat)
    (now : Int) (stats : TreasuryStats) :
    report_yield caller yield_amount new_portfolio_value now stats
      = .ok { stats with
                total_yield_generated :=
                  satAdd64 stats.total_yield_generated yield_amount
                current_portfolio_value := new_portfolio_value
                last_updated_ts := now } := rfl

/-- Characterization of a successful `initStrategy` transaction. -/
theorem step_init_ok {now : Int} {caller : Nat} {stype : StrategyType}
    {alloc tapy risk : Nat} {g g' : GState}
    (h : step now (.initStrategy caller stype alloc tapy risk) g = .ok g') :
    ∃ st stats',
      initialize_strategy caller TREASURY 0 stype alloc tapy risk 0 0 now
          g.stats = .ok (st, stats') ∧
      g' = { stats := stats', strategies := g.strategies ++ [st] } := by
  unfold step at h
  cases hi : initialize_strategy caller TREASURY 0 stype alloc tapy risk 0 0
      now g.stats with
  | error e => simp [hi] at h
  | ok r =>
    obtain ⟨st, stats'⟩ := r
    simp only [hi] at h
    cases h
    exact ⟨st, stats', rfl, rfl⟩

/-- A `reportYield` transaction always succeeds with this exact result. -/
theorem step_report_eq (now : Int) (caller amount pv : Nat) (g : GState) :
    step now (.reportYield caller amount pv) g
      = .ok { stats := { g.stats with
                           total_yield_generated :=
                             satAdd64 g.stats.total_yield_generated amount
                           current_portfolio_value := pv
                           last_updated_ts := now }
              strategies := g.strategies } := rfl

/-- A successful transaction never shrinks the strategy set. -/
theorem step_length_mono {now : Int} {op : Op} {g g' : GState}
    (h : step now op g = .ok g') :
    g.strategies.length ≤ g'.strategies.length := by
  cases op with
  | initStrategy caller stype alloc tapy risk =>
    obtain ⟨st, stats', -, hg'⟩ := step_init_ok h
    subst hg'
    simp
  | activateStrategy caller idx =>
    obtain ⟨st, st', stats', -, -, hg'⟩ := onStrategy_ok h
    subst hg'
    simp
  | pauseStrategy caller idx =>
    obtain ⟨st, st', stats', -, -, hg'⟩ := onStrategy_ok h
    subst hg'
    simp
  | terminateStrategy caller idx =>
    obtain ⟨st, st', stats', -, -, hg'⟩ := onStrategy_ok h
    subst hg'
    simp
  | updateAllocation caller idx newAlloc =>
    obtain ⟨st, st', stats', -, -, hg'⟩ := onStrategy_ok h
    subst hg'
    simp
  | updateApy caller idx newApy =>
    obtain ⟨st, st', stats', -, -, hg'⟩ := onStrategy_ok h
    subst hg'
    simp
  | reportYield caller amount pv =>
    rw [step_report_eq] at h
    cases h
    exact Nat.le_refl _

/-- No transaction ever changes `total_usdc_deposited`: the program has no
instruction crediting deposits. -/
theorem step_deposited {now : Int} {op : Op} {g g' : GState}
    (h : step now op g = .ok g') :
    g'.stats.total_usdc_deposited = g.stats.total_usdc_deposited := by
  cases op with
  | initStrategy caller stype alloc tapy risk =>
    obtain ⟨st, stats', hi, hg'⟩ := step_init_ok h
    subst hg'
    exact (initialize_strategy_ok_stats hi).2.2.2.1
  | activateStrategy caller idx =>
    obtain ⟨st, st', stats', -, hf, hg'⟩ := onStrategy_ok h
    obtain ⟨-, -, -, hstats'⟩ := activate_strategy_ok hf
    subst hg'
    rw [hstats']
  | pauseStrategy caller idx =>
    obtain ⟨st, st', stats', -, hf, hg'⟩ := onStrategy_ok h
    obtain ⟨-, -, -, hstats'⟩ := pause_strategy_ok hf
    subst hg'
    rw [hstats']
  | terminateStrategy caller idx =>
    obtain ⟨st, st', stats', -, hf, hg'⟩ := onStrategy_ok h
    obtain ⟨-, -, hstats'⟩ := terminate_strategy_ok hf
    subst hg'
    rw [hstats']
  | updateAllocation caller idx newAlloc =>
    obtain ⟨st, st', stats', -, hf, hg'⟩ := onStrategy_ok h
    obtain ⟨-, -, -, hstats'⟩ := update_allocation_ok hf
    subst hg'
    rw [hstats']
  | updateApy caller idx newApy =>
    obtain ⟨st, st', stats', -, hf, hg'⟩ := onStrategy_ok h
    obtain ⟨-, -, hstats'⟩ := update_apy_ok hf
    subst hg'
    rw [hstats']
  | reportYield caller amount pv =>
    rw [step_report_eq] at h
    cases h
    rfl

/-- One successful transaction preserves the counter invariant. -/
theorem INV_step {now : Int} {op : Op} {g g' : GState}
    (h : step now op g = .ok g') (hg : INV g) : INV g' := by
  intro hlen'
  have hlen : g.strategies.length ≤ 255 :=
    Nat.le_trans (step_length_mono h) hlen'
  obtain ⟨hs, ha⟩ := hg hlen
  cases op with
  | initStrategy caller stype alloc tapy risk =>
    obtain ⟨st, stats', hi, hg'⟩ := step_init_ok h
    obtain ⟨hpaused, hcnt, hact, -, -⟩ := initialize_strategy_ok_stats hi
    subst hg'
    simp only [List.length_append, List.length_cons, List.length_nil] at hlen' ⊢
    constructor
    · rw [hcnt, hs]
      unfold u8wrap
      have : g.strategies.length + 1 < 256 := by omega
      exact Nat.mod_eq_of_lt this
    · rw [hact, ha]
      unfold countActive
      rw [List.countP_append]
      have : isActive st = false := by simp [isActive, hpaused]
      simp [this]
  | activateStrategy caller idx =>
    obtain ⟨st, st', stats', hl, hf, hg'⟩ := onStrategy_ok h
    obtain ⟨-, hnact, hst', hstats'⟩ := activate_strategy_ok hf
    subst hg'
    subst hst'
    subst hstats'
    simp only [List.length_set] at hlen' ⊢
    have hstF : isActive st = false := by simp [isActive, hnact]
    have hstT : isActive { st with
        state := StrategyState.Active, last_rebalance_ts := now } = true := by
      simp [isActive]
    have hkey := countP_set_getElem isActive g.strategies idx
      { st with state := StrategyState.Active, last_rebalance_ts := now } st hl
    simp only [hstF, hstT, Bool.false_eq_true, if_true, if_false, ite_true,
      ite_false, Nat.add_zero] at hkey
    have hlt : countActive g.strategies < g.strategies.length :=
      countP_lt_length_getElem isActive g.strategies idx st hl hstF
    refine ⟨hs, ?_⟩
    show u8wrap (g.stats.active_strategies_count + 1) = _
    rw [ha]
    unfold u8wrap countActive
    unfold countActive at hlt
    rw [hkey]
    exact Nat.mod_eq_of_lt (by omega)
  | pauseStrategy caller idx =>
    obtain ⟨st, st', stats', hl, hf, hg'⟩ := onStrategy_ok h
    obtain ⟨-, hact', hst', hstats'⟩ := pause_strategy_ok hf
    subst hg'
    subst hst'
    subst hstats'
    simp only [List.length_set] at hlen' ⊢
    have hstT : isActive st = true := by simp [isActive, hact']
    have hstF : isActive { st with state := StrategyState.Paused } = false := by
      simp [isActive]
    have hkey := countP_set_getElem isActive g.strategies idx
      { st with state := StrategyState.Paused } st hl
    simp only [hstT, hstF, Bool.false_eq_true, if_true, if_false, ite_true,
      ite_false, Nat.add_zero] at hkey
    refine ⟨hs, ?_⟩
    show g.stats.active_strategies_count - 1 = _
    rw [ha]
    unfold countActive
    omega
  | terminateStrategy caller idx =>
    obtain ⟨st, st', stats', hl, hf, hg'⟩ := onStrategy_ok h
    obtain ⟨-, hst', hstats'⟩ := terminate_strategy_ok hf
    subst hg'
    subst hst'
    subst hstats'
    simp only [List.length_set] at hlen' ⊢
    have hstF : isActive { st with state := StrategyState.Terminated } = false := by
      simp [isActive]
    have hkey := countP_set_getElem isActive g.strategies idx
      { st with state := StrategyState.Terminated } st hl
    simp only [hstF, Bool.false_eq_true, if_true, if_false, ite_true,
      ite_false, Nat.add_zero] at hkey
    refine ⟨hs, ?_⟩
    by_cases hA : st.state = StrategyState.Active
    · have hstT : isActive st = true := by simp [isActive, hA]
      simp only [hstT, if_true, ite_true] at hkey
      show (if st.state = StrategyState.Active then
              g.stats.active_strategies_count - 1
            else g.stats.active_strategies_count) = _
      rw [if_pos hA, ha]
      unfold countActive
      omega
    · have hstN : isActive st = false := by simp [isActive, hA]
      simp only [hstN, Bool.false_eq_true, if_false, ite_false,
        Nat.add_zero] at hkey
      show (if st.state = StrategyState.Active then
              g.stats.active_strategies_count - 1
            else g.stats.active_strategies_count) = _
      rw [if_neg hA, ha]
      unfold countActive
      omega
  | updateAllocation caller idx newAlloc =>
    obtain ⟨st, st', stats', hl, hf, hg'⟩ := onStrategy_ok h
    obtain ⟨-, -, hst', hstats'⟩ := update_allocation_ok hf
    subst hg'
    subst hst'
    subst hstats'
    simp only [List.length_set] at hlen' ⊢
    have hsame : isActive { st with allocation_percentage := newAlloc }
        = isActive st := by simp [isActive]
    have hkey := countP_set_getElem isActive g.strategies idx
      { st with allocation_percentage := newAlloc } st hl
    rw [hsame] at hkey
    refine ⟨hs, ?_⟩
    show g.stats.active_strategies_count = _
    rw [ha]
    unfold countActive
    omega
  | updateApy caller idx newApy =>
    obtain ⟨st, st', stats', hl, hf, hg'⟩ := onStrategy_ok h
    obtain ⟨-, hst', hstats'⟩ := update_apy_ok hf
    subst hg'
    subst hst'
    subst hstats'
    simp only [List.length_set] at hlen' ⊢
    have hsame : isActive { st with current_apy := newApy }
        = isActive st := by simp [isActive]
    have hkey := countP_set_getElem isActive g.strategies idx
      { st with current_apy := newApy } st hl
    rw [hsame] at hkey
    refine ⟨hs, ?_⟩
    show g.stats.active_strategies_count = _
    rw [ha]
    unfold countActive
    omega
  | reportYield caller amount pv =>
    rw [step_report_eq] at h
    cases h
    exact ⟨hs, ha⟩

/-- `stepKeep` preserves the counter invariant. -/
theorem INV_stepKeep (now : Int) (op : Op) {g : GState} (hg : INV g) :
    INV (stepKeep now op g) := by
  unfold stepKeep
  cases hstep : step now op g with
  | ok g' => exact INV_step hstep hg
  | error e => exact hg

/-- The counter invariant holds along every trace. -/
theorem INV_execTrace (tr : List (Int × Op)) {g : GState} (hg : INV g) :
    INV (execTrace tr g) := by
  induction tr generalizing g with
  | nil => exact hg
  | cons p rest ih => exact ih (INV_stepKeep p.1 p.2 hg)

/-- Every reachable global state satisfies the counter invariant. -/
theorem INV_of_reachable {g : GState} (hg : Reachable g) : INV g := by
  obtain ⟨tr, htr⟩ := hg
  have h0 : INV g0 := by intro h; exact ⟨rfl, rfl⟩
  rw [← htr]
  exact INV_execTrace tr h0

/-- Traces compose. -/
theorem execTrace_append (tr1 tr2 : List (Int × Op)) (g : GState) :
    execTrace (tr1 ++ tr2) g = execTrace tr2 (execTrace tr1 g) := by
  induction tr1 generalizing g with
  | nil => rfl
  | cons p rest ih => exact ih _

/-- Reachability is closed under one more transaction attempt. -/
theorem reachable_stepKeep {g : GState} (h : Reachable g) (now : Int)
    (op : Op) : Reachable (stepKeep now op g) := by
  obtain ⟨tr, htr⟩ := h
  exact ⟨tr ++ [(now, op)], by rw [execTrace_append, htr]; rfl⟩

/-- A transaction attempt never shrinks the strategy set. -/
theorem stepKeep_length_mono (now : Int) (op : Op) (g : GState) :
    g.strategies.length ≤ (stepKeep now op g).strategies.length := by
  unfold stepKeep
  cases hstep : step now op g with
  | ok g' => exact step_length_mono hstep
  | error e => exact Nat.le_refl _

/-- A transaction attempt never changes `total_usdc_deposited`. -/
theorem stepKeep_deposited (now : Int) (op : Op) (g : GState) :
    (stepKeep now op g).stats.total_usdc_deposited
      = g.stats.total_usdc_deposited := by
  unfold stepKeep
  cases hstep : step now op g with
  | ok g' => exact step_deposited hstep
  | error e => rfl

/-- `total_usdc_deposited` is constant along traces. -/
theorem execTrace_deposited (tr : List (Int × Op)) (g : GState) :
    (execTrace tr g).stats.total_usdc_deposited
      = g.stats.total_usdc_deposited := by
  induction tr generalizing g with
  | nil => rfl
  | cons p rest ih => rw [execTrace, ih, stepKeep_deposited]

/-- Every reachable state still has zero recorded deposits: no instruction
of this program credits `total_usdc_deposited`. -/
theorem deposited_of_reachable {g : GState} (h : Reachable g) :
    g.stats.total_usdc_deposited = 0 := by
  obtain ⟨tr, htr⟩ := h
  rw [← htr, execTrace_deposited]
  rfl

/-- Claim C1 (code bug): the Terminated state is not absorbing.  On the
concrete Terminated strategy `termStrat`, `activate_strategy` by its own
authority succeeds (the handler only guards against an already-Active
strategy) and moves the state to Active, contradicting the documented
permanence of termination. -/
theorem activate_revives_terminated :
    termStrat.state = StrategyState.Terminated ∧
    ∃ st' stats',
      activate_strategy 1 0 termStrat statsZero = .ok (st', stats') ∧
      st'.state = StrategyState.Active := by
  exact ⟨rfl, ⟨_, _, rfl, rfl⟩⟩

/-- Claim C2 (code bug): `report_yield` performs no authority check.  On a
treasury whose recorded `treasury_authority` is `1`, a call by the unrelated
principal `99` succeeds and mutates `TreasuryStats` (yield total, portfolio
value and timestamp), instead of failing with an authorization error. -/
theorem report_yield_ignores_authority :
    (99 : Nat) ≠ statsAuth1.treasury_authority ∧
    report_yield 99 1000 50000 5 statsAuth1
      = .ok { statsAuth1 with
                total_yield_generated := 1000
                current_portfolio_value := 50000
                last_updated_ts := 5 } := by
  constructor
  · decide
  · rw [report_yield_eq]
    norm_num [statsAuth1, statsZero, satAdd64]

/-- Claim C5: `pause_strategy` on a Paused or Terminated strategy fails with
the `StrategyNotActive` state error; `activate_strategy` on an Active
strategy fails with `StrategyAlreadyActive`; `terminate_strategy` by the
strategy's authority succeeds from every state; a second
`terminate_strategy` on an already-Terminated strategy is a no-op on the
state: it remains Terminated and `active_strategies_count` is not
decremented again. -/
theorem lifecycle_guards (caller : Nat) (now : Int) (st : Strategy)
    (stats : TreasuryStats) (hauth : st.authority = caller) :
    ((st.state = StrategyState.Paused ∨ st.state = StrategyState.Terminated) →
      pause_strategy caller now st stats
        = .error (.Dne .StrategyNotActive)) ∧
    (st.state = StrategyState.Active →
      activate_strategy caller now st stats
        = .error (.Dne .StrategyAlreadyActive)) ∧
    (∃ st' stats', terminate_strategy caller now st stats = .ok (st', stats')) ∧
    (st.state = StrategyState.Terminated →
      ∀ st' stats',
        terminate_strategy caller now st stats = .ok (st', stats') →
        st'.state = StrategyState.Terminated ∧
        stats'.active_strategies_count = stats.active_strategies_count) := by
  refine ⟨?_, ?_, ?_, ?_⟩
  · intro hns
    have hne : ¬ st.state = StrategyState.Active := by
      rcases hns with h | h <;> rw [h] <;> intro hc <;> exact
        StrategyState.noConfusion hc
    simp [pause_strategy, hauth, hne]
  · intro hA
    simp [activate_strategy, hauth, hA]
  · refine ⟨{ st with state := StrategyState.Terminated },
      { stats with
          active_strategies_count :=
            if st.state = StrategyState.Active then
              stats.active_strategies_count - 1
            else stats.active_strategies_count
          last_updated_ts := now }, ?_⟩
    simp [terminate_strategy, hauth]
  · intro hT st' stats' hok
    obtain ⟨-, hst', hstats'⟩ := terminate_strategy_ok hok
    subst hst'
    subst hstats'
    refine ⟨rfl, ?_⟩
    simp [hT]

/-- Witness for C5, at the Terminated strategy `termStrat` with its
authority `1` calling. -/
theorem lifecycle_guards_witness :
    pause_strategy 1 0 termStrat statsZero
      = .error (.Dne .StrategyNotActive) :=
  (lifecycle_guards 1 0 termStrat statsZero rfl).1 (Or.inr rfl)

/-- Claim C8: for every starting `TreasuryStats` and all arguments, a
(necessarily successful) `report_yield` sets `total_yield_generated` to the
saturating sum of its old value and the reported yield, overwrites
`current_portfolio_value`, and stamps the timestamp; in particular
`report_yield(1000, 50000)` on zero accumulated yield gives `1000` and
`50000`. -/
theorem report_yield_spec (caller yield_amount new_portfolio_value : Nat)
    (now : Int) (stats : TreasuryStats) :
    report_yield caller yield_amount new_portfolio_value now stats
      = .ok { stats with
                total_yield_generated :=
                  satAdd64 stats.total_yield_generated yield_amount
                current_portfolio_value := new_portfolio_value
                last_updated_ts := now } ∧
    report_yield caller 1000 50000 now
        { stats with total_yield_generated := 0 }
      = .ok { stats with
                total_yield_generated := 1000
                current_portfolio_value := 50000
                last_updated_ts := now } := by
  refine ⟨report_yield_eq caller yield_amount new_portfolio_value now stats, ?_⟩
  rw [report_yield_eq]
  norm_num [satAdd64]

/-- Claim C9: a successful stable-to-synthetic swap of `X` followed by a
successful synthetic-to-stable swap of `X` by the same caller restores the
caller's stable and synthetic balances (and the treasury's stable balance)
to their values before the first swap. -/
theorem swap_round_trip (amount : Nat) (b b1 b2 : Balances)
    (h1 : swap_usdc_to_usds amount b = .ok b1)
    (h2 : swap_usds_to_usdc amount b1 = .ok b2) :
    b2.user_usdc = b.user_usdc ∧ b2.user_usds = b.user_usds ∧
    b2.treasury_usdc = b.treasury_usdc := by
  unfold swap_usdc_to_usds at h1
  split_ifs at h1 with hb
  simp only [Except.ok.injEq] at h1
  subst h1
  unfold swap_usds_to_usdc at h2
  split_ifs at h2 with hb1 hb2
  simp only [Except.ok.injEq] at h2
  subst h2
  push_neg at hb
  refine ⟨?_, ?_, ?_⟩ <;> simp <;> omega

/-- Witness for C9: a round trip of 5 units from balances `(10, 0, 0)`. -/
theorem swap_round_trip_witness :
    swap_usdc_to_usds 5 ⟨10, 0, 0⟩ = .ok ⟨5, 5, 5⟩ ∧
    swap_usds_to_usdc 5 ⟨5, 5, 5⟩ = .ok ⟨10, 0, 0⟩ ∧
    (Balances.user_usdc ⟨10, 0, 0⟩ = Balances.user_usdc ⟨10, 0, 0⟩ ∧
     Balances.user_usds ⟨10, 0, 0⟩ = Balances.user_usds ⟨10, 0, 0⟩ ∧
     Balances.treasury_usdc ⟨10, 0, 0⟩ = Balances.treasury_usdc ⟨10, 0, 0⟩) :=
  ⟨rfl, rfl, swap_round_trip 5 ⟨10, 0, 0⟩ ⟨5, 5, 5⟩ ⟨10, 0, 0⟩ rfl rfl⟩

/-- Claim C10: on a Terminated strategy, `update_allocation` (with a valid
percentage) and `update_apy` still succeed for the strategy's authority and
set their field exactly as on any other state, and no instruction of the
program ever returns the (declared but unused) `StrategyTerminated` error. -/
theorem terminated_updates_allowed (caller newAlloc newApy : Nat) (now : Int)
    (st : Strategy) (stats : TreasuryStats)
    (hauth : st.authority = caller) (hT : st.state = StrategyState.Terminated)
    (hle : newAlloc ≤ 100) :
    update_allocation caller newAlloc now st stats
      = .ok ({ st with allocation_percentage := newAlloc },
             { stats with last_updated_ts := now }) ∧
    update_apy caller newApy now st stats
      = .ok ({ st with current_apy := newApy },
             { stats with last_updated_ts := now }) ∧
    (∀ (a t tta al ta ri sb stb : Nat) (sty : StrategyType) (n : Int)
       (s : TreasuryStats),
      initialize_strategy a t tta sty al ta ri sb stb n s
        ≠ .error (.Dne .StrategyTerminated)) ∧
    (∀ (c : Nat) (n : Int) (s1 : Strategy) (s2 : TreasuryStats),
      activate_strategy c n s1 s2 ≠ .error (.Dne .StrategyTerminated) ∧
      pause_strategy c n s1 s2 ≠ .error (.Dne .StrategyTerminated) ∧
      terminate_strategy c n s1 s2 ≠ .error (.Dne .StrategyTerminated)) ∧
    (∀ (c na : Nat) (n : Int) (s1 : Strategy) (s2 : TreasuryStats),
      update_allocation c na n s1 s2 ≠ .error (.Dne .StrategyTerminated) ∧
      update_apy c na n s1 s2 ≠ .error (.Dne .StrategyTerminated)) ∧
    (∀ (c ya pv : Nat) (n : Int) (s2 : TreasuryStats),
      report_yield c ya pv n s2 ≠ .error (.Dne .StrategyTerminated)) := by
  refine ⟨?_, ?_, ?_, ?_, ?_, ?_⟩
  · simp [update_allocation, hauth, hle]
  · simp [update_apy, hauth]
  · intro a t tta al ta ri sb stb sty n s
    unfold initialize_strategy
    split_ifs <;> first
      | exact fun hc => Except.noConfusion hc
      | simp
  · intro c n s1 s2
    refine ⟨?_, ?_, ?_⟩
    · unfold activate_strategy
      split_ifs <;> first
        | exact fun hc => Except.noConfusion hc
        | simp
    · unfold pause_strategy
      split_ifs <;> first
        | exact fun hc => Except.noConfusion hc
        | simp
    · unfold terminate_strategy
      split_ifs <;> first
        | exact fun hc => Except.noConfusion hc
        | simp
  · intro c na n s1 s2
    refine ⟨?_, ?_⟩
    · unfold update_allocation
      split_ifs <;> first
        | exact fun hc => Except.noConfusion hc
        | simp
    · unfold update_apy
      split_ifs <;> first
        | exact fun hc => Except.noConfusion hc
        | simp
  · intro c ya pv n s2
    exact fun hc => Except.noConfusion hc

/-- Witness for C10, at the Terminated strategy `termStrat`. -/
theorem terminated_updates_allowed_witness :
    update_allocation 1 50 0 termStrat statsZero
      = .ok ({ termStrat with allocation_percentage := 50 },
             { statsZero with last_updated_ts := 0 }) :=
  (terminated_updates_allowed 1 50 0 0 termStrat statsZero rfl rfl
    (by decide)).1

set_option maxRecDepth 80000

/-- Claim C3 (counterexample): the counter invariant does not hold in every
reachable state.  A trace of 255 strategy creations, one activation and one
further creation wraps the `u8` strategies counter to 0 while one strategy
is Active, so `active_strategies_count ≤ strategies_count` fails in the
reached state (and `strategies_count` drops from 255 to 0, breaking
monotonicity). -/
theorem counters_wrap_reachable :
    ¬ (∀ g : GState, Reachable g →
        g.stats.active_strategies_count ≤ g.stats.strategies_count) := by
  intro hclaim
  have h := hclaim (execTrace badTrace g0) ⟨badTrace, rfl⟩
  have h1 : (execTrace badTrace g0).stats.active_strategies_count = 1 := by rfl
  have h2 : (execTrace badTrace g0).stats.strategies_count = 0 := by rfl
  rw [h1, h2] at h
  exact absurd h (by decide)

/-- Claim C3 (amended): as long as at most 255 strategies have ever been
created, after every transaction attempt from a reachable state
`active_strategies_count ≤ strategies_count` holds and `strategies_count`
is monotone non-decreasing (and, the counters being naturals, they are never
negative); the u8 wrap on the 256th creation is the only violation. -/
theorem stats_counts_invariant (g : GState) (now : Int) (op : Op)
    (hg : Reachable g)
    (hlen : (stepKeep now op g).strategies.length ≤ 255) :
    (stepKeep now op g).stats.active_strategies_count
        ≤ (stepKeep now op g).stats.strategies_count ∧
    g.stats.strategies_count ≤ (stepKeep now op g).stats.strategies_count := by
  have hg' : Reachable (stepKeep now op g) := reachable_stepKeep hg now op
  have hmono := stepKeep_length_mono now op g
  obtain ⟨hs', ha'⟩ := INV_of_reachable hg' hlen
  obtain ⟨hs, ha⟩ := INV_of_reachable hg (Nat.le_trans hmono hlen)
  refine ⟨?_, ?_⟩
  · rw [hs', ha']
    unfold countActive
    exact List.countP_le_length isActive
  · rw [hs, hs']
    exact hmono

/-- Witness for C3's amended invariant: one strategy creation from genesis. -/
theorem stats_counts_invariant_witness :
    Reachable g0 ∧
    (stepKeep 0 (Op.initStrategy 1 StrategyType.LiquidStaking 30 500 40)
        g0).strategies.length ≤ 255 ∧
    ((stepKeep 0 (Op.initStrategy 1 StrategyType.LiquidStaking 30 500 40)
          g0).stats.active_strategies_count
        ≤ (stepKeep 0 (Op.initStrategy 1 StrategyType.LiquidStaking 30 500 40)
            g0).stats.strategies_count ∧
     g0.stats.strategies_count
        ≤ (stepKeep 0 (Op.initStrategy 1 StrategyType.LiquidStaking 30 500 40)
            g0).stats.strategies_count) :=
  ⟨⟨[], rfl⟩, by decide,
    stats_counts_invariant g0 0
      (Op.initStrategy 1 StrategyType.LiquidStaking 30 500 40)
      ⟨[], rfl⟩ (by decide)⟩

/-- Claim C4 (counterexample): the counter increments are not saturating.
On a stats record whose `strategies_count` is already at the `u8` maximum
255, a successful `initialize_strategy` leaves the counter at 0 (it wraps),
not at the maximum 255 that saturating arithmetic would give. -/
theorem increment_not_saturating :
    ¬ (∀ (stats : TreasuryStats) (st : Strategy) (stats' : TreasuryStats),
        initialize_strategy 1 0 0 StrategyType.LiquidStaking 30 500 40 0 0 0
            stats = .ok (st, stats') →
        stats'.strategies_count = min (stats.strategies_count + 1) 255) := by
  intro hclaim
  obtain ⟨st, stats', heq⟩ : ∃ st stats',
      initialize_strategy 1 0 0 StrategyType.LiquidStaking 30 500 40 0 0 0
        stats255 = .ok (st, stats') := ⟨_, _, rfl⟩
  have h := hclaim stats255 st stats' heq
  have h0 : stats'.strategies_count = 0 := by
    obtain ⟨-, hc, -, -, -⟩ := initialize_strategy_ok_stats heq
    rw [hc]
    rfl
  rw [h0] at h
  exact absurd h (by decide)

/-- Claim C4 (amended): the two counter decrements (`pause_strategy`,
`terminate_strategy` from Active) use saturating subtraction and never go
below zero, while the two increments (`initialize_strategy`,
`activate_strategy`) use plain `u8` addition that wraps modulo 2^8 instead
of saturating. -/
theorem counter_arithmetic_modes (caller : Nat) (now : Int) (st : Strategy)
    (stats : TreasuryStats) (hauth : st.authority = caller) :
    (∀ (a t tta al ta ri sb stb : Nat) (sty : StrategyType) (n : Int)
       (s : TreasuryStats) (st1 : Strategy) (s1 : TreasuryStats),
        initialize_strategy a t tta sty al ta ri sb stb n s = .ok (st1, s1) →
        s1.strategies_count = u8wrap (s.strategies_count + 1)) ∧
    (∀ st' stats', activate_strategy caller now st stats = .ok (st', stats') →
        stats'.active_strategies_count
          = u8wrap (stats.active_strategies_count + 1)) ∧
    (∀ st' stats', pause_strategy caller now st stats = .ok (st', stats') →
        stats'.active_strategies_count = stats.active_strategies_count - 1 ∧
        (stats.active_strategies_count = 0 →
          stats'.active_strategies_count = 0)) ∧
    (∀ st' stats', terminate_strategy caller now st stats = .ok (st', stats') →
        stats'.active_strategies_count
          = (if st.state = StrategyState.Active then
               stats.active_strategies_count - 1
             else stats.active_strategies_count) ∧
        (stats.active_strategies_count = 0 →
          stats'.active_strategies_count = 0)) := by
  refine ⟨?_, ?_, ?_, ?_⟩
  · intro a t tta al ta ri sb stb sty n s st1 s1 h
    exact (initialize_strategy_ok_stats h).2.1
  · intro st' stats' h
    obtain ⟨-, -, -, hstats'⟩ := activate_strategy_ok h
    rw [hstats']
  · intro st' stats' h
    obtain ⟨-, -, -, hstats'⟩ := pause_strategy_ok h
    rw [hstats']
    exact ⟨rfl, fun h0 => by simp [h0]⟩
  · intro st' stats' h
    obtain ⟨-, -, hstats'⟩ := terminate_strategy_ok h
    rw [hstats']
    refine ⟨rfl, fun h0 => ?_⟩
    by_cases hA : st.state = StrategyState.Active <;> simp [hA, h0]

/-- Witness for C4's amended arithmetic claims, at the Terminated strategy
`termStrat` with its authority `1` calling. -/
theorem counter_arithmetic_modes_witness :
    termStrat.authority = 1 ∧
    ((∀ (a t tta al ta ri sb stb : Nat) (sty : StrategyType) (n : Int)
        (s : TreasuryStats) (st1 : Strategy) (s1 : TreasuryStats),
         initialize_strategy a t tta sty al ta ri sb stb n s = .ok (st1, s1) →
         s1.strategies_count = u8wrap (s.strategies_count + 1)) ∧
     (∀ st' stats', activate_strategy 1 0 termStrat statsZero
            = .ok (st', stats') →
         stats'.active_strategies_count
           = u8wrap (statsZero.active_strategies_count + 1)) ∧
     (∀ st' stats', pause_strategy 1 0 termStrat statsZero
            = .ok (st', stats') →
         stats'.active_strategies_count
            = statsZero.active_strategies_count - 1 ∧
         (statsZero.active_strategies_count = 0 →
           stats'.active_strategies_count = 0)) ∧
     (∀ st' stats', terminate_strategy 1 0 termStrat statsZero
            = .ok (st', stats') →
         stats'.active_strategies_count
           = (if termStrat.state = StrategyState.Active then
                statsZero.active_strategies_count - 1
              else statsZero.active_strategies_count) ∧
         (statsZero.active_strategies_count = 0 →
           stats'.active_strategies_count = 0))) :=
  ⟨rfl, counter_arithmetic_modes 1 0 termStrat statsZero rfl⟩

/-- Claim C6 (counterexample): not every successful mutating operation
stamps `last_updated_ts`.  On a stats record with deposit history
(`total_usdc_deposited = 1`, timestamp `7`), `initialize_strategy` at clock
time `99` succeeds but leaves the timestamp at `7`. -/
theorem init_skips_timestamp :
    ¬ (∀ (stats : TreasuryStats) (now : Int) (st : Strategy)
         (stats' : TreasuryStats),
        initialize_strategy 1 0 0 StrategyType.LiquidStaking 30 500 40 0 0
            now stats = .ok (st, stats') →
        stats'.last_updated_ts = now) := by
  intro hclaim
  obtain ⟨st, stats', heq⟩ : ∃ st stats',
      initialize_strategy 1 0 0 StrategyType.LiquidStaking 30 500 40 0 0 99
        statsDep = .ok (st, stats') := ⟨_, _, rfl⟩
  have h := hclaim statsDep 99 st stats' heq
  have h7 : stats'.last_updated_ts = 7 := by
    obtain ⟨-, -, -, -, hts⟩ := initialize_strategy_ok_stats heq
    rw [hts]
    rfl
  rw [h7] at h
  exact absurd h (by decide)

/-- Claim C6 (amended): every successful mutating operation stamps
`TreasuryStats.last_updated_ts` with the clock time, except
`initialize_strategy` on a stats record with `total_usdc_deposited ≠ 0`
(where only the counter moves); and since no instruction of this program
ever credits `total_usdc_deposited`, every reachable stats record has it at
0, so in every reachable state the stamp does happen. -/
theorem timestamp_stamping :
    (∀ (a t tta al ta ri sb stb : Nat) (sty : StrategyType) (n : Int)
       (s : TreasuryStats) (st1 : Strategy) (s1 : TreasuryStats),
        s.total_usdc_deposited = 0 →
        initialize_strategy a t tta sty al ta ri sb stb n s = .ok (st1, s1) →
        s1.last_updated_ts = n) ∧
    (∀ (c : Nat) (n : Int) (s1 : Strategy) (s2 : TreasuryStats)
       (st' : Strategy) (s2' : TreasuryStats),
        activate_strategy c n s1 s2 = .ok (st', s2') →
        s2'.last_updated_ts = n) ∧
    (∀ (c : Nat) (n : Int) (s1 : Strategy) (s2 : TreasuryStats)
       (st' : Strategy) (s2' : TreasuryStats),
        pause_strategy c n s1 s2 = .ok (st', s2') →
        s2'.last_updated_ts = n) ∧
    (∀ (c : Nat) (n : Int) (s1 : Strategy) (s2 : TreasuryStats)
       (st' : Strategy) (s2' : TreasuryStats),
        terminate_strategy c n s1 s2 = .ok (st', s2') →
        s2'.last_updated_ts = n) ∧
    (∀ (c na : Nat) (n : Int) (s1 : Strategy) (s2 : TreasuryStats)
       (st' : Strategy) (s2' : TreasuryStats),
        update_allocation c na n s1 s2 = .ok (st', s2') →
        s2'.last_updated_ts = n) ∧
    (∀ (c na : Nat) (n : Int) (s1 : Strategy) (s2 : TreasuryStats)
       (st' : Strategy) (s2' : TreasuryStats),
        update_apy c na n s1 s2 = .ok (st', s2') →
        s2'.last_updated_ts = n) ∧
    (∀ (c ya pv : Nat) (n : Int) (s : TreasuryStats) (s' : TreasuryStats),
        report_yield c ya pv n s = .ok s' → s'.last_updated_ts = n) ∧
    (∀ g : GState, Reachable g → g.stats.total_usdc_deposited = 0) := by
  refine ⟨?_, ?_, ?_, ?_, ?_, ?_, ?_, ?_⟩
  · intro a t tta al ta ri sb stb sty n s st1 s1 hd h
    have hts := (initialize_strategy_ok_stats h).2.2.2.2
    rw [hts, if_pos hd]
  · intro c n s1 s2 st' s2' h
    obtain ⟨-, -, -, hstats'⟩ := activate_strategy_ok h
    rw [hstats']
  · intro c n s1 s2 st' s2' h
    obtain ⟨-, -, -, hstats'⟩ := pause_strategy_ok h
    rw [hstats']
  · intro c n s1 s2 st' s2' h
    obtain ⟨-, -, hstats'⟩ := terminate_strategy_ok h
    rw [hstats']
  · intro c na n s1 s2 st' s2' h
    obtain ⟨-, -, -, hstats'⟩ := update_allocation_ok h
    rw [hstats']
  · intro c na n s1 s2 st' s2' h
    obtain ⟨-, -, hstats'⟩ := update_apy_ok h
    rw [hstats']
  · intro c ya pv n s s' h
    rw [report_yield_eq] at h
    cases h
    rfl
  · exact fun g hg => deposited_of_reachable hg

/-- Witness for C6's amended stamping claim: `initialize_strategy` on the
fresh zero-history stats record stamps clock time `5`. -/
theorem timestamp_stamping_witness :
    statsZero.total_usdc_deposited = 0 ∧
    ∃ st1 s1,
      initialize_strategy 1 0 0 StrategyType.LiquidStaking 30 500 40 0 0 5
          statsZero = .ok (st1, s1) ∧
      s1.last_updated_ts = 5 :=
  ⟨rfl, _, _, rfl,
    timestamp_stamping.1 1 0 0 30 500 40 0 0 StrategyType.LiquidStaking 5
      statsZero _ _ rfl rfl⟩

/-- Claim C7 (counterexample): `initialize_strategy` does not increment
`strategies_count` by exactly 1 from every starting stats record: at the
`u8` maximum 255 the counter wraps to 0 instead of reaching 256. -/
theorem init_scenario_wrap :
    ¬ (∀ (stats : TreasuryStats) (st : Strategy) (stats' : TreasuryStats),
        initialize_strategy 1 0 0 StrategyType.LiquidStaking 30 500 40 0 0 0
            stats = .ok (st, stats') →
        stats'.strategies_count = stats.strategies_count + 1) := by
  intro hclaim
  obtain ⟨st, stats', heq⟩ : ∃ st stats',
      initialize_strategy 1 0 0 StrategyType.LiquidStaking 30 500 40 0 0 0
        stats255 = .ok (st, stats') := ⟨_, _, rfl⟩
  have h := hclaim stats255 st stats' heq
  have h0 : stats'.strategies_count = 0 := by
    obtain ⟨-, hc, -, -, -⟩ := initialize_strategy_ok_stats heq
    rw [hc]
    rfl
  rw [h0] at h
  exact absurd h (by decide)

/-- Claim C7 (amended): provided both counters start at most 254 (so that no
`u8` increment wraps), `initialize_strategy(alloc=30, apy=500, risk=40)`
succeeds with a Paused, zero-APY record and `strategies_count` up by exactly
one; a following `activate_strategy` by the same authority makes it Active
with `active_strategies_count` up by one; a following `pause_strategy` makes
it Paused again with `active_strategies_count` back at its pre-activation
value. -/
theorem init_activate_pause_scenario (caller treasury tta sb stb : Nat)
    (t1 t2 t3 : Int) (stats : TreasuryStats)
    (hc : stats.strategies_count ≤ 254)
    (hac : stats.active_strategies_count ≤ 254) :
    ∃ st1 stats1 st2 stats2 st3 stats3,
      initialize_strategy caller treasury tta StrategyType.LiquidStaking
          30 500 40 sb stb t1 stats = .ok (st1, stats1) ∧
      st1.state = StrategyState.Paused ∧
      st1.current_apy = 0 ∧
      stats1.strategies_count = stats.strategies_count + 1 ∧
      activate_strategy caller t2 st1 stats1 = .ok (st2, stats2) ∧
      st2.state = StrategyState.Active ∧
      stats2.active_strategies_count = stats1.active_strategies_count + 1 ∧
      pause_strategy caller t3 st2 stats2 = .ok (st3, stats3) ∧
      st3.state = StrategyState.Paused ∧
      stats3.active_strategies_count = stats1.active_strategies_count := by
  obtain ⟨st1, stats1, h1⟩ : ∃ a b,
      initialize_strategy caller treasury tta StrategyType.LiquidStaking
        30 500 40 sb stb t1 stats = .ok (a, b) := ⟨_, _, rfl⟩
  obtain ⟨-, -, -, hst1, hstats1⟩ := initialize_strategy_ok h1
  have hst1state : st1.state = StrategyState.Paused := by rw [hst1]
  have hst1apy : st1.current_apy = 0 := by rw [hst1]
  have hst1auth : st1.authority = caller := by rw [hst1]
  have hcnt1 : stats1.strategies_count = stats.strategies_count + 1 := by
    rw [hstats1]
    by_cases hd : stats.total_usdc_deposited = 0 <;>
      simp [hd, u8wrap,
        Nat.mod_eq_of_lt (by omega : stats.strategies_count + 1 < 256)]
  have hact1 : stats1.active_strategies_count
      = stats.active_strategies_count := by
    rw [hstats1]
    by_cases hd : stats.total_usdc_deposited = 0 <;> simp [hd]
  have h2 : activate_strategy caller t2 st1 stats1
      = .ok ({ st1 with
                 state := StrategyState.Active
                 last_rebalance_ts := t2 },
             { stats1 with
                 active_strategies_count :=
                   u8wrap (stats1.active_strategies_count + 1)
                 last_updated_ts := t2 }) := by
    unfold activate_strategy
    rw [if_neg (by simp [hst1auth]), if_neg (by simp [hst1state])]
  have hcnt2 : ({ stats1 with
      active_strategies_count :=
        u8wrap (stats1.active_strategies_count + 1)
      last_updated_ts := t2 } : TreasuryStats).active_strategies_count
      = stats1.active_strategies_count + 1 := by
    show u8wrap (stats1.active_strategies_count + 1) = _
    rw [hact1]
    unfold u8wrap
    exact Nat.mod_eq_of_lt (by omega)
  have h3 : pause_strategy caller t3
      ({ st1 with state := StrategyState.Active, last_rebalance_ts := t2 })
      ({ stats1 with
           active_strategies_count :=
             u8wrap (stats1.active_strategies_count + 1)
           last_updated_ts := t2 })
      = .ok ({ st1 with
                 state := StrategyState.Paused
                 last_rebalance_ts := t2 },
             { stats1 with
                 active_strategies_count :=
                   u8wrap (stats1.active_strategies_count + 1) - 1
                 last_updated_ts := t3 }) := by
    unfold pause_strategy
    rw [if_neg (by simp [hst1auth]), if_neg (by simp)]
  refine ⟨st1, stats1,
    { st1 with state := StrategyState.Active, last_rebalance_ts := t2 },
    { stats1 with
        active_strategies_count :=
          u8wrap (stats1.active_strategies_count + 1)
        last_updated_ts := t2 },
    { st1 with state := StrategyState.Paused, last_rebalance_ts := t2 },
    { stats1 with
        active_strategies_count :=
          u8wrap (stats1.active_strategies_count + 1) - 1
        last_updated_ts := t3 },
    h1, hst1state, hst1apy, hcnt1, h2, rfl, hcnt2, h3, rfl, ?_⟩
  have hu : u8wrap (stats1.active_strategies_count + 1)
      = stats1.active_strategies_count + 1 := hcnt2
  show u8wrap (stats1.active_strategies_count + 1) - 1
      = stats1.active_strategies_count
  rw [hu]
  omega

/-- Witness for C7's amended scenario, from the fresh zeroed stats record. -/
theorem init_activate_pause_scenario_witness :
    statsZero.strategies_count ≤ 254 ∧
    statsZero.active_strategies_count ≤ 254 ∧
    (∃ st1 stats1 st2 stats2 st3 stats3,
      initialize_strategy 1 0 0 StrategyType.LiquidStaking 30 500 40 0 0 0
          statsZero = .ok (st1, stats1) ∧
      st1.state = StrategyState.Paused ∧
      st1.current_apy = 0 ∧
      stats1.strategies_count = statsZero.strategies_count + 1 ∧
      activate_strategy 1 0 st1 stats1 = .ok (st2, stats2) ∧
      st2.state = StrategyState.Active ∧
      stats2.active_strategies_count = stats1.active_strategies_count + 1 ∧
      pause_strategy 1 0 st2 stats2 = .ok (st3, stats3) ∧
      st3.state = StrategyState.Paused ∧
      stats3.active_strategies_count = stats1.active_strategies_count) :=
  ⟨by decide, by decide,
    init_activate_pause_scenario 1 0 0 0 0 0 0 0 statsZero (by decide)
      (by decide)⟩
